import Mathlib

/-!
# Session lifecycle of `AuthProvider` (frontend/src/context/AuthContext.js)

A shallow embedding of the React component `AuthProvider` and of the login
handler of `App.js`.

Modelling conventions.

* JavaScript values that flow through the component (JSON response bodies, the
  `token` and `user` state cells) are values of `JVal`.  JSON numerals are
  integers here (the numerals without fraction or exponent whose JavaScript
  string form is the decimal numeral).
* The three `useState` cells, the `localStorage` entry under the key `token`
  and `axios.defaults.headers.common['Authorization']` form a `Session`.
* A `World` adds the HTTP requests that are in flight.  One `Event` is one
  synchronous block of JavaScript (a call of `login` up to its first `await`,
  the continuation after an `await`, a call of `logout`), followed by the
  re-render React performs for it; the `useEffect` on `[token]` runs in that
  re-render exactly when the committed token differs from the previous one
  under `Object.is`.
* axios resolves a request whose status is in `[200, 300)` and rejects every
  other one; a rejected request carries `error.response` when the server
  answered and carries none on a transport failure.
-/

namespace AuthContext

/-! ## JavaScript values -/

mutual
/-- JavaScript values produced by `JSON.parse`, plus `undefined`. -/
inductive JVal where
  | undefined
  | null
  | bool (b : Bool)
  | num (n : Int)
  | str (s : String)
  | arr (xs : JList)
  | obj (fs : JFields)
/-- The elements of an array. -/
inductive JList where
  | nil
  | cons (v : JVal) (rest : JList)
/-- The own properties of an object, in order; each key occurs once. -/
inductive JFields where
  | nil
  | cons (k : String) (v : JVal) (rest : JFields)
end

/-- JavaScript `ToBoolean`: what `if (v)`, `!!v` and `v || w` test. -/
def JVal.truthy : JVal → Bool
  | .undefined => false
  | .null => false
  | .bool b => b
  | .num n => n != 0
  | .str s => s != ""
  | .arr _ => true
  | .obj _ => true

/-- `Object.is`, the comparison React uses for state cells and for effect
dependencies.  Arrays and objects are compared by reference; every array or
object handed to `setToken` is freshly parsed from a response, so it is never
the reference already held. -/
def JVal.objectIs : JVal → JVal → Bool
  | .undefined, .undefined => true
  | .null, .null => true
  | .bool a, .bool b => a == b
  | .num a, .num b => a == b
  | .str a, .str b => a == b
  | _, _ => false

mutual
/-- JavaScript `ToString`, used by template literals and by
`localStorage.setItem`. -/
def JVal.toStr : JVal → String
  | .undefined => "undefined"
  | .null => "null"
  | .bool true => "true"
  | .bool false => "false"
  | .num n => toString n
  | .str s => s
  | .arr xs => JList.join xs
  | .obj _ => "[object Object]"
/-- The string form of one array element in `Array.prototype.join`. -/
def JVal.elemStr : JVal → String
  | .undefined => ""
  | .null => ""
  | .bool true => "true"
  | .bool false => "false"
  | .num n => toString n
  | .str s => s
  | .arr xs => JList.join xs
  | .obj _ => "[object Object]"
/-- `Array.prototype.join` with the default separator. -/
def JList.join : JList → String
  | .nil => ""
  | .cons v .nil => JVal.elemStr v
  | .cons v (.cons w rest) => JVal.elemStr v ++ "," ++ JList.join (.cons w rest)
end

/-- Look a key up among the own properties of an object. -/
def JFields.find (key : String) : JFields → JVal
  | .nil => .undefined
  | .cons k v rest => if k == key then v else JFields.find key rest

/-- Property read `v.key` on a value that is neither `null` nor `undefined`:
the keys read by this program exist only as own properties of objects. -/
def JVal.prop (v : JVal) (key : String) : JVal :=
  match v with
  | .obj fs => fs.find key
  | _ => .undefined

/-- Optional chaining `v?.key`. -/
def JVal.optProp (v : JVal) (key : String) : JVal :=
  match v with
  | .undefined => .undefined
  | .null => .undefined
  | w => w.prop key

/-- The operator `a || b`. -/
def JVal.orElse (a b : JVal) : JVal :=
  if a.truthy then a else b

/-! ## HTTP outcomes -/

/-- What the network delivers for one request. -/
inductive HttpOutcome where
  | response (status : Nat) (data : JVal)
  | noResponse

/-- What a `catch` block of this program can receive. -/
inductive Thrown where
  /-- A rejected axios request; `response` is `error.response`. -/
  | axiosError (response : Option (Nat × JVal))
  /-- A `TypeError` raised by the program itself; it has no `response`. -/
  | typeError

/-- The value of `await axios.get(..)` or `await axios.post(..)`: the response
body on a status in `[200, 300)`, a thrown error otherwise. -/
def HttpOutcome.settle : HttpOutcome → Except Thrown JVal
  | .response status data =>
      if 200 ≤ status ∧ status < 300 then .ok data
      else .error (.axiosError (some (status, data)))
  | .noResponse => .error (.axiosError none)

/-- Whether axios rejects the request. -/
def HttpOutcome.rejects (r : HttpOutcome) : Bool :=
  match r.settle with
  | .ok _ => false
  | .error _ => true

/-- Destructuring `const { key } = data`: a `TypeError` on `null` and
`undefined`, a property read otherwise. -/
def destructure (data : JVal) (key : String) : Except Thrown JVal :=
  match data with
  | .undefined => .error .typeError
  | .null => .error .typeError
  | w => .ok (w.prop key)

/-- The expression `error.response?.data?.detail`. -/
def Thrown.detail : Thrown → JVal
  | .axiosError none => .undefined
  | .axiosError (some (_, data)) => data.optProp "detail"
  | .typeError => .undefined

/-- The expression `error.response?.data?.detail || 'Erro ao fazer login'`,
shared by `login` (AuthContext.js) and `handleLogin` (App.js). -/
def loginErrorMessage (e : Thrown) : JVal :=
  (e.detail).orElse (.str "Erro ao fazer login")

/-! ## The session -/

/-- The state cells of `AuthProvider` and the two stores it mirrors into. -/
structure Session where
  /-- `useState(localStorage.getItem('token'))`. -/
  token : JVal
  /-- `useState(null)`. -/
  user : JVal
  /-- `useState(true)`. -/
  loading : Bool
  /-- `localStorage.getItem('token')`, `none` for `null`. -/
  store : Option String
  /-- `axios.defaults.headers.common['Authorization']`, `none` when deleted. -/
  authHeader : Option String

/-- The value of `isAuthenticated: !!token && !!user`. -/
def Session.isAuthenticated (s : Session) : Bool :=
  s.token.truthy && s.user.truthy

/-- A `GET /api/me` in flight. -/
structure MeRequest where
  /-- The default `Authorization` header at the time of the call. -/
  authorization : Option String
  /-- Whether the call is the one `login` awaits. -/
  awaited : Bool

/-- The session together with the requests in flight. -/
structure World where
  s : Session
  /-- Calls of `fetchUserData` waiting for their response. -/
  meRequests : List MeRequest
  /-- Calls of `login` waiting for the response of `POST /api/login`, with the
  submitted username and password. -/
  loginRequests : List (String × String)

/-- The object `login` returns. -/
structure LoginResult where
  success : Bool
  /-- The `error` property; `none` when the object has no such property. -/
  error : Option JVal

/-- The value of `localStorage.getItem('token')` as a JavaScript value. -/
def fromStore : Option String → JVal
  | none => .null
  | some t => .str t

/-- The first render: the three `useState` initialisers, before any effect. -/
def initialState (store : Option String) : Session :=
  { token := fromStore store, user := .null, loading := true,
    store := store, authHeader := none }

/-- The function `logout` (lines 87-92). -/
def logout (s : Session) : Session :=
  { s with token := .null, user := .null, store := none, authHeader := none }

/-- The call `fetchUserData()` up to its `await`: the request leaves with the
default header of that moment. -/
def callFetchUserData (awaited : Bool) (w : World) : World :=
  { w with meRequests := w.meRequests ++ [⟨w.s.authHeader, awaited⟩] }

/-- The body of the effect on `[token]` (lines 22-31). -/
def tokenEffect (w : World) : World :=
  if w.s.token.truthy then
    callFetchUserData false
      { w with s := { w.s with authHeader := some ("Bearer " ++ w.s.token.toStr) } }
  else
    { w with s := { w.s with authHeader := none, loading := false } }

/-- The re-render after a block that called `setToken`: the effect runs when
the token differs from `prev`, the token of the previous render. -/
def commit (prev : JVal) (w : World) : World :=
  if prev.objectIs w.s.token then w else tokenEffect w

/-- Mounting the provider: first render, then the effect. -/
def mount (store : Option String) : World :=
  tokenEffect { s := initialState store, meRequests := [], loginRequests := [] }

/-- The continuation of `fetchUserData` after its `await` (lines 35-42). -/
def fetchUserDataResume (r : HttpOutcome) (s : Session) : Session :=
  match r.settle with
  | .ok data => { s with user := data, loading := false }
  | .error _ => { logout s with loading := false }

/-- Lines 64-66 of `login`: `setToken`, `localStorage.setItem` and the default
header, all from the received `access_token`. -/
def storeCredential (access_token : JVal) (s : Session) : Session :=
  { s with token := access_token,
           store := some access_token.toStr,
           authHeader := some ("Bearer " ++ access_token.toStr) }

/-- The `try` block of `login` after `await axios.post` (lines 61-69), up to
the `await fetchUserData()`. -/
def loginTry (r : HttpOutcome) (w : World) : Except Thrown World := do
  let data ← r.settle
  let access_token ← destructure data "access_token"
  pure (callFetchUserData true { w with s := storeCredential access_token w.s })

/-- The synchronous blocks of the component. -/
inductive Event where
  /-- A call `login(username, password)`: the POST leaves. -/
  | loginCall (username password : String)
  /-- The response of the `i`-th pending `POST /api/login` arrives. -/
  | loginResponse (i : Nat) (r : HttpOutcome)
  /-- The response of the `i`-th pending `GET /api/me` arrives. -/
  | meResponse (i : Nat) (r : HttpOutcome)
  /-- A call `logout()`. -/
  | logoutCall

/-- One event: the new world and, when a call of `login` returns in it, the
object it returns.  `none` when the event names a request that is not in
flight.  The blocks that call `setToken` (the stored login response, `logout`,
the `catch` of `fetchUserData`) are followed by `commit`; a resolved `/api/me`
only calls `setUser` and `setLoading`, which no effect depends on. -/
def step (w : World) : Event → Option (World × Option LoginResult)
  | .loginCall username password =>
      some ({ w with loginRequests := w.loginRequests ++ [(username, password)] }, none)
  | .loginResponse i r =>
      match w.loginRequests[i]? with
      | none => none
      | some _ =>
          let w1 := { w with loginRequests := w.loginRequests.eraseIdx i }
          match loginTry r w1 with
          | .ok w2 => some (commit w.s.token w2, none)
          | .error e => some (w1, some ⟨false, some (loginErrorMessage e)⟩)
  | .meResponse i r =>
      match w.meRequests[i]? with
      | none => none
      | some req =>
          let w1 := { w with meRequests := w.meRequests.eraseIdx i }
          let w2 :=
            match r.settle with
            | .ok _ => { w1 with s := fetchUserDataResume r w1.s }
            | .error _ => commit w.s.token { w1 with s := fetchUserDataResume r w1.s }
          some (w2, if req.awaited then some ⟨true, none⟩ else none)
  | .logoutCall =>
      some (commit w.s.token { w with s := logout w.s }, none)

/-- The world after an event. -/
def next (w : World) (e : Event) : Option World :=
  (step w e).map Prod.fst

/-- The world after a sequence of events. -/
def run (w : World) : List Event → Option World
  | [] => some w
  | e :: es =>
      match next w e with
      | none => none
      | some w1 => run w1 es

/-! ## The login handler of `App.js` -/

/-- The state cells of `App` and the `localStorage` entry under `auth_token`. -/
structure AppState where
  isAuthenticated : Bool
  username : String
  password : String
  loading : Bool
  /-- `useState('')`; `setError` receives whatever the expression yields. -/
  error : JVal
  dashboardData : JVal
  /-- `localStorage.getItem('auth_token')`. -/
  authStore : Option String

/-- The function `handleLogin` up to its `await` (lines 54-56). -/
def handleLoginStart (a : AppState) : AppState :=
  { a with loading := true, error := .str "" }

/-- The function `handleLogin` after `await axios.post` (lines 64-79): the new
state and the `Authorization` header of the dashboard request it sends. -/
def handleLoginResume (r : HttpOutcome) (a : AppState) : AppState × Option String :=
  match r.settle >>= fun data => destructure data "access_token" with
  | .ok access_token =>
      ({ a with authStore := some access_token.toStr, isAuthenticated := true,
                username := "", password := "", loading := false },
       some ("Bearer " ++ access_token.toStr))
  | .error e =>
      ({ a with error := loginErrorMessage e, loading := false }, none)

/-- The function `handleLogin` for one outcome of its POST. -/
def handleLogin (r : HttpOutcome) (a : AppState) : AppState × Option String :=
  handleLoginResume r (handleLoginStart a)

/-! ## Vocabulary of the specification -/

/-- A credential or user is absent when JavaScript treats it as false. -/
def Absent (v : JVal) : Prop := v.truthy = false

/-- The session after a purge: nothing in memory, nothing stored, no header,
not loading. -/
def loggedOut : Session :=
  { token := .null, user := .null, loading := false, store := none, authHeader := none }

/-- State `Unauthenticated` with the credential gone from the store and from
the default headers as well. -/
def UnauthenticatedClean (s : Session) : Prop :=
  Absent s.token ∧ Absent s.user ∧ s.loading = false ∧ s.store = none ∧ s.authHeader = none

/-- The credential `t` is set: held in memory, stored, and attached to the
default header. -/
def CredentialSet (t : String) (s : Session) : Prop :=
  s.token = .str t ∧ s.store = some t ∧ s.authHeader = some ("Bearer " ++ t)

/-- The in-memory credential, the stored credential and the default header
agree: all absent, or all carrying the same string. -/
def Agree (s : Session) : Prop :=
  (Absent s.token ∧ s.store = none ∧ s.authHeader = none) ∨
    ∃ t, s.token = .str t ∧ s.store = some t ∧ s.authHeader = some ("Bearer " ++ t)

/-- The first two statements both login handlers run on the response of the
POST: await it, then destructure `access_token` from its body. -/
def HttpOutcome.grant (r : HttpOutcome) : Except Thrown JVal :=
  r.settle >>= fun data => destructure data "access_token"

/-- The access token a login response hands out, when it hands one out. -/
def HttpOutcome.accessToken (r : HttpOutcome) : Option JVal :=
  match r.grant with
  | .ok v => some v
  | .error _ => none

/-- The login responses of this event honour the contract of the Identity
Service: a resolved `POST /api/login` carries a non-empty string
`access_token`. -/
def contractLogin : Event → Bool
  | .loginResponse _ r =>
      match r.accessToken with
      | some (.str t) => t != ""
      | some _ => false
      | none => true
  | _ => true

/-- No login response hands a falsy access token to a session that holds a
user. -/
def keepsCredential (w : World) : Event → Bool
  | .loginResponse _ r =>
      match r.accessToken with
      | some v => v.truthy || !w.s.user.truthy
      | none => true
  | _ => true

/-- A user is held only together with a credential. -/
def UserImpliesCredential (s : Session) : Prop :=
  s.user.truthy = true → s.token.truthy = true

/-- The three places of the credential hold nothing, or hold the same non-empty
string. -/
def Synced (s : Session) : Prop :=
  (s.token = .null ∧ s.store = none ∧ s.authHeader = none) ∨
    ∃ t, t ≠ "" ∧ CredentialSet t s

/-- A resolved `GET /api/me` arrives only while a credential is held. -/
def timely (w : World) : Event → Bool
  | .meResponse _ r => r.rejects || w.s.token.truthy
  | _ => true

/-- Every event of the sequence passes the guard `g` in the world it meets. -/
def admissible (g : World → Event → Bool) : World → List Event → Bool
  | _, [] => true
  | w, e :: es =>
      g w e &&
        match next w e with
        | some w1 => admissible g w1 es
        | none => true

/-- A full session after a mount that found a credential: its resolution, a
logout, a new login handing out the token `new`, and the two resolutions that
login causes. -/
def sampleSession : List Event :=
  [.meResponse 0 (.response 200 (.obj .nil)), .logoutCall,
   .loginCall "admin" "admin",
   .loginResponse 0 (.response 200 (.obj (.cons "access_token" (.str "new") .nil))),
   .meResponse 1 (.response 200 (.obj .nil)),
   .meResponse 0 (.response 200 (.obj .nil))]

theorem truthy_str {t : String} : (JVal.str t).truthy = true ↔ t ≠ "" := by
  simp [JVal.truthy]

/-! ## The effect and the re-render -/

theorem tokenEffect_token (w : World) : (tokenEffect w).s.token = w.s.token := by
  unfold tokenEffect callFetchUserData; split <;> rfl

theorem tokenEffect_user (w : World) : (tokenEffect w).s.user = w.s.user := by
  unfold tokenEffect callFetchUserData; split <;> rfl

theorem tokenEffect_store (w : World) : (tokenEffect w).s.store = w.s.store := by
  unfold tokenEffect callFetchUserData; split <;> rfl

theorem tokenEffect_falsy {w : World} (h : w.s.token.truthy = false) :
    tokenEffect w = { w with s := { w.s with authHeader := none, loading := false } } := by
  unfold tokenEffect; simp [h]

theorem tokenEffect_truthy {w : World} (h : w.s.token.truthy = true) :
    tokenEffect w =
      { w with s := { w.s with authHeader := some ("Bearer " ++ w.s.token.toStr) },
               meRequests := w.meRequests ++ [⟨some ("Bearer " ++ w.s.token.toStr), false⟩] } := by
  unfold tokenEffect callFetchUserData; simp [h]

theorem commit_token (prev : JVal) (w : World) : (commit prev w).s.token = w.s.token := by
  unfold commit; split <;> simp [tokenEffect_token]

theorem commit_user (prev : JVal) (w : World) : (commit prev w).s.user = w.s.user := by
  unfold commit; split <;> simp [tokenEffect_user]

theorem commit_store (prev : JVal) (w : World) : (commit prev w).s.store = w.s.store := by
  unfold commit; split <;> simp [tokenEffect_store]

/-- After `logout` the re-render sends nothing and leaves no header. -/
theorem commit_logout (prev : JVal) (w : World) :
    (commit prev { w with s := logout w.s }).s.authHeader = none ∧
      (commit prev { w with s := logout w.s }).meRequests = w.meRequests := by
  unfold commit
  split
  · exact ⟨rfl, rfl⟩
  · rw [tokenEffect_falsy (by rfl)]
    exact ⟨rfl, rfl⟩

theorem loginTry_eq (r : HttpOutcome) (w : World) :
    loginTry r w =
      (r.grant).map fun v => callFetchUserData true { w with s := storeCredential v w.s } := by
  unfold loginTry HttpOutcome.grant
  cases r.settle with
  | error e => rfl
  | ok data =>
      cases hd : destructure data "access_token" with
      | error e => simp [bind, Except.bind, Except.map, hd]
      | ok v => simp [bind, Except.bind, Except.map, hd, pure, Except.pure]

/-- The re-render after a failed resolution lands on the purged session. -/
theorem commit_purged (prev : JVal) (w : World) :
    commit prev { w with s := { logout w.s with loading := false } } =
      { w with s := loggedOut } := by
  unfold commit
  split
  · rfl
  · rw [tokenEffect_falsy (by rfl)]
    rfl

/-- The two ways a response to `POST /api/login` is handled. -/
theorem step_loginResponse {w w1 : World} {i : Nat} {r : HttpOutcome}
    {res : Option LoginResult} (h : step w (.loginResponse i r) = some (w1, res)) :
    (∃ e, r.grant = .error e ∧ res = some ⟨false, some (loginErrorMessage e)⟩ ∧
        w1 = { w with loginRequests := w.loginRequests.eraseIdx i }) ∨
      (∃ v, r.grant = .ok v ∧ res = none ∧
        w1 = commit w.s.token (callFetchUserData true
          { w with loginRequests := w.loginRequests.eraseIdx i,
                   s := storeCredential v w.s })) := by
  unfold step at h
  cases hg : w.loginRequests[i]? with
  | none => simp [hg] at h
  | some cred =>
      simp only [hg, loginTry_eq] at h
      cases hr : r.grant with
      | error e =>
          simp only [hr, Except.map, Option.some.injEq, Prod.mk.injEq] at h
          exact Or.inl ⟨e, rfl, h.2.symm, h.1.symm⟩
      | ok v =>
          simp only [hr, Except.map, Option.some.injEq, Prod.mk.injEq] at h
          exact Or.inr ⟨v, rfl, h.2.symm, h.1.symm⟩

/-- The two ways a response to `GET /api/me` is handled. -/
theorem step_meResponse {w w1 : World} {i : Nat} {r : HttpOutcome}
    {res : Option LoginResult} (h : step w (.meResponse i r) = some (w1, res)) :
    (∃ data, r.settle = .ok data ∧
        w1 = { w with meRequests := w.meRequests.eraseIdx i,
                      s := { w.s with user := data, loading := false } }) ∨
      (r.rejects = true ∧
        w1 = { w with meRequests := w.meRequests.eraseIdx i, s := loggedOut }) := by
  unfold step at h
  cases hg : w.meRequests[i]? with
  | none => simp [hg] at h
  | some req =>
      simp only [hg, Option.some.injEq, Prod.mk.injEq] at h
      cases hr : r.settle with
      | ok data =>
          simp only [hr, fetchUserDataResume] at h
          exact Or.inl ⟨data, rfl, h.1.symm⟩
      | error e =>
          simp only [hr, fetchUserDataResume] at h
          refine Or.inr ⟨by simp [HttpOutcome.rejects, hr], ?_⟩
          rw [← h.1]
          exact commit_purged w.s.token { w with meRequests := w.meRequests.eraseIdx i }

/-- An event that leads somewhere is a step with some result. -/
theorem next_eq_some {w w1 : World} {e : Event} (h : next w e = some w1) :
    ∃ res, step w e = some (w1, res) := by
  unfold next at h
  cases hs : step w e with
  | none => simp [hs] at h
  | some p =>
      obtain ⟨w2, res⟩ := p
      simp only [hs, Option.map_some', Option.some.injEq] at h
      exact ⟨res, by rw [← h]⟩

/-! ## Invariants of runs -/

/-- A property kept by every event that passes the guard holds after every
admissible run. -/
theorem run_invariant (g : World → Event → Bool) (P : World → Prop)
    (hstep : ∀ w e w1, P w → g w e = true → next w e = some w1 → P w1) :
    ∀ (evs : List Event) (w w2 : World), P w → admissible g w evs = true →
      run w evs = some w2 → P w2 := by
  intro evs
  induction evs with
  | nil =>
      intro w w2 hP _ hrun
      simp only [run, Option.some.injEq] at hrun
      exact hrun ▸ hP
  | cons e es ih =>
      intro w w2 hP hadm hrun
      simp only [run] at hrun
      simp only [admissible, Bool.and_eq_true] at hadm
      cases hn : next w e with
      | none => simp [hn] at hrun
      | some w1 =>
          simp only [hn] at hrun hadm
          exact ih w1 w2 (hstep w e w1 hP hadm.1 hn) hadm.2 hrun

/-- C8: `logout` is idempotent on the full state, both as the function itself
and as the event that includes the re-render: a second `logout()` changes
nothing, not even the requests in flight. -/
theorem logout_idempotent :
    (∀ s : Session, logout (logout s) = logout s) ∧
      ∀ w : World, (next w .logoutCall).bind (fun w1 => next w1 .logoutCall) =
        next w .logoutCall := by
  refine ⟨fun s => rfl, fun w => ?_⟩
  simp only [next, step, Option.map_some', Option.some_bind, Option.some.injEq]
  generalize hw1 : commit w.s.token { w with s := logout w.s } = w1
  have ht : w1.s.token = .null := by rw [← hw1, commit_token]; rfl
  have hu : w1.s.user = .null := by rw [← hw1, commit_user]; rfl
  have hst : w1.s.store = none := by rw [← hw1, commit_store]; rfl
  have hh : w1.s.authHeader = none := by rw [← hw1]; exact (commit_logout _ w).1
  unfold commit
  have : w1.s.token.objectIs (logout w1.s).token = true := by rw [ht]; rfl
  simp only [this, if_true]
  obtain ⟨⟨t, u, l, st, h⟩, m, lr⟩ := w1
  simp only at ht hu hst hh
  subst ht hu hst hh
  rfl

/-! ## Resolution of the credential -/

/-- C4, as stated, fails: a `200` answer of `/api/me` whose body is `null` is
not a failure for `fetchUserData`; it stores `null` as the user and keeps the
credential in memory, in the store and in the default header. -/
theorem null_body_keeps_credential :
    ∃ w1, next (mount (some "tok")) (.meResponse 0 (.response 200 .null)) = some w1 ∧
      w1.s.token = .str "tok" ∧ w1.s.user = .null ∧ w1.s.store = some "tok" ∧
      w1.s.authHeader = some "Bearer tok" ∧ w1.s.loading = false ∧
      ¬ UnauthenticatedClean w1.s := by
  refine ⟨_, rfl, rfl, rfl, rfl, by decide, rfl, ?_⟩
  rintro ⟨h, _⟩
  have h2 : (JVal.str "tok").truthy = false := h
  exact absurd h2 (by decide)

/-- C4 (amended): for every state and every outcome of `GET /api/me` that axios
rejects (a transport failure or a status outside `[200, 300)`, such as 401 or
403), after `fetchUserData` completes the token and the user are `null`, the
stored credential and the default header are gone, `loading` is false, and no
new request has been sent. -/
theorem rejected_resolution_purges (w : World) (i : Nat) (req : MeRequest)
    (r : HttpOutcome) (hpend : w.meRequests[i]? = some req) (hrej : r.rejects = true) :
    ∃ w1 res, step w (.meResponse i r) = some (w1, res) ∧
      w1.s = loggedOut ∧ UnauthenticatedClean w1.s ∧
      w1.meRequests = w.meRequests.eraseIdx i := by
  have hs : ∃ w1 res, step w (.meResponse i r) = some (w1, res) := by
    unfold step
    simp only [hpend]
    exact ⟨_, _, rfl⟩
  obtain ⟨w1, res, hs⟩ := hs
  refine ⟨w1, res, hs, ?_⟩
  rcases step_meResponse hs with ⟨data, hok, _⟩ | ⟨_, rfl⟩
  · simp [HttpOutcome.rejects, hok] at hrej
  · exact ⟨rfl, ⟨rfl, rfl, rfl, rfl, rfl⟩, rfl⟩

/-- The amended C4 at a mount with the credential `tok` rejected with 401. -/
theorem rejected_resolution_purges_witness :
    ∃ w1 res, step (mount (some "tok"))
        (.meResponse 0 (.response 401 (.obj (.cons "detail" (.str "Expired") .nil)))) =
          some (w1, res) ∧
      w1.s = loggedOut ∧ UnauthenticatedClean w1.s ∧
      w1.meRequests = (mount (some "tok")).meRequests.eraseIdx 0 :=
  rejected_resolution_purges (mount (some "tok")) 0 ⟨some "Bearer tok", false⟩
    (.response 401 (.obj (.cons "detail" (.str "Expired") .nil))) rfl rfl

/-! ## Failed logins -/

/-- C5: for every state, every pending call of `login` (whatever username and
password it carries), every status outside `[200, 300)` and every non-empty
string `d`, a response with body `{detail: d}` makes `login` return
`{success: false, error: d}`; the session (token, user, loading, store,
default header) is unchanged and no `/api/me` request is sent. -/
theorem login_rejected_reports_detail (w : World) (i : Nat) (cred : String × String)
    (status : Nat) (d : String) (hpend : w.loginRequests[i]? = some cred)
    (hstatus : ¬ (200 ≤ status ∧ status < 300)) (hd : d ≠ "") :
    ∃ w1, step w (.loginResponse i
        (.response status (.obj (.cons "detail" (.str d) .nil)))) =
          some (w1, some ⟨false, some (.str d)⟩) ∧
      w1.s = w.s ∧ w1.meRequests = w.meRequests ∧
      w1.loginRequests = w.loginRequests.eraseIdx i := by
  refine ⟨{ w with loginRequests := w.loginRequests.eraseIdx i }, ?_, rfl, rfl, rfl⟩
  unfold step
  simp only [hpend, loginTry_eq, HttpOutcome.grant, HttpOutcome.settle, hstatus, if_false]
  simp [bind, Except.bind, Except.map, loginErrorMessage, Thrown.detail, JVal.optProp,
    JVal.prop, JFields.find, JVal.orElse, JVal.truthy, hd]

/-- C5 at the example of the specification: `login("admin", "wrong")` from
`Unauthenticated`, answered by 401 with `{"detail": "Invalid credentials"}`. -/
theorem login_rejected_reports_detail_witness :
    ∃ w1, step ⟨loggedOut, [], [("admin", "wrong")]⟩ (.loginResponse 0
        (.response 401 (.obj (.cons "detail" (.str "Invalid credentials") .nil)))) =
          some (w1, some ⟨false, some (.str "Invalid credentials")⟩) ∧
      w1.s = loggedOut ∧ w1.meRequests = [] ∧
      w1.loginRequests = [("admin", "wrong")].eraseIdx 0 :=
  login_rejected_reports_detail ⟨loggedOut, [], [("admin", "wrong")]⟩ 0 ("admin", "wrong")
    401 "Invalid credentials" rfl (by decide) (by decide)

/-- C6, as stated, fails: a `detail` that is a non-zero number is truthy, so
the operator `||` yields the number itself and not the generic message, in
`login` as well as in `handleLogin`. -/
theorem numeric_detail_is_reported :
    (∃ w1, step ⟨loggedOut, [], [("admin", "admin")]⟩ (.loginResponse 0
        (.response 422 (.obj (.cons "detail" (.num 5) .nil)))) =
          some (w1, some ⟨false, some (.num 5)⟩)) ∧
      (handleLogin (.response 422 (.obj (.cons "detail" (.num 5) .nil)))
        ⟨false, "admin", "admin", false, .str "", .null, none⟩).1.error = .num 5 ∧
      JVal.num 5 ≠ .str "Erro ao fazer login" := by
  exact ⟨⟨_, rfl⟩, rfl, by simp⟩

/-- C6 (amended): for every failed login request, `login` returns
`{success: false, error: m}` and `handleLogin` stores `m` as its error, where
`m` is the generic message `'Erro ao fazer login'` whenever
`error.response?.data?.detail` is absent or falsy (no response, a thrown
`TypeError`, no body, a body without `detail`, or a `detail` that is the empty
string, `0`, `false` or `null`), and `m` is `detail` itself whenever `detail`
is truthy, whether it is a string or not. -/
theorem login_error_message (w : World) (i : Nat) (cred : String × String)
    (r : HttpOutcome) (e : Thrown) (a : AppState)
    (hpend : w.loginRequests[i]? = some cred) (hfail : r.grant = .error e) :
    (∃ w1, step w (.loginResponse i r) =
        some (w1, some ⟨false, some (loginErrorMessage e)⟩)) ∧
      (handleLogin r a).1.error = loginErrorMessage e ∧
      (e.detail.truthy = false → loginErrorMessage e = .str "Erro ao fazer login") ∧
      (e.detail.truthy = true → loginErrorMessage e = e.detail) ∧
      loginErrorMessage (.axiosError none) = .str "Erro ao fazer login" ∧
      loginErrorMessage .typeError = .str "Erro ao fazer login" ∧
      (∀ status, loginErrorMessage (.axiosError (some (status, .undefined))) =
        .str "Erro ao fazer login") ∧
      (∀ status, loginErrorMessage (.axiosError (some (status, .null))) =
        .str "Erro ao fazer login") ∧
      (∀ status body, loginErrorMessage (.axiosError (some (status, .str body))) =
        .str "Erro ao fazer login") ∧
      (∀ status fs, (fs.find "detail").truthy = false →
        loginErrorMessage (.axiosError (some (status, .obj fs))) =
          .str "Erro ao fazer login") ∧
      (∀ status rest,
        loginErrorMessage (.axiosError (some (status, .obj (.cons "detail" (.str "") rest)))) =
          .str "Erro ao fazer login") ∧
      (∀ status rest,
        loginErrorMessage (.axiosError (some (status, .obj (.cons "detail" (.num 0) rest)))) =
          .str "Erro ao fazer login") := by
  refine ⟨?_, ?_, ?_, ?_, rfl, rfl, fun _ => rfl, fun _ => rfl, fun _ _ => rfl, ?_,
    fun _ _ => rfl, fun _ _ => rfl⟩
  · refine ⟨{ w with loginRequests := w.loginRequests.eraseIdx i }, ?_⟩
    unfold step
    simp only [hpend, loginTry_eq, hfail, Except.map]
  · unfold handleLogin handleLoginResume
    have hg : (r.settle >>= fun data => destructure data "access_token") = .error e := hfail
    simp only [hg]
  · intro h
    simp [loginErrorMessage, JVal.orElse, h]
  · intro h
    simp [loginErrorMessage, JVal.orElse, h]
  · intro status fs h
    simp [loginErrorMessage, JVal.orElse, Thrown.detail, JVal.optProp, JVal.prop, h]

/-- The amended C6 at a login request that got no response at all. -/
theorem login_error_message_witness :
    (∃ w1, step ⟨loggedOut, [], [("admin", "admin")]⟩ (.loginResponse 0 .noResponse) =
        some (w1, some ⟨false, some (.str "Erro ao fazer login")⟩)) ∧
      (handleLogin .noResponse ⟨false, "admin", "admin", false, .str "", .null, none⟩).1.error =
        .str "Erro ao fazer login" := by
  have h := login_error_message ⟨loggedOut, [], [("admin", "admin")]⟩ 0 ("admin", "admin")
    .noResponse (.axiosError none) ⟨false, "admin", "admin", false, .str "", .null, none⟩
    rfl rfl
  exact ⟨h.1, h.2.1⟩

/-! ## Successful logins -/

/-- The re-render keeps the default header of a truthy token that `login` has
just attached. -/
theorem commit_authHeader_truthy (prev : JVal) (w : World) (h : w.s.token.truthy = true)
    (hh : w.s.authHeader = some ("Bearer " ++ w.s.token.toStr)) :
    (commit prev w).s.authHeader = some ("Bearer " ++ w.s.token.toStr) := by
  unfold commit
  split
  · exact hh
  · rw [tokenEffect_truthy h]

theorem accessToken_of_grant {r : HttpOutcome} {v : JVal} (h : r.grant = .ok v) :
    r.accessToken = some v := by
  simp [HttpOutcome.accessToken, h]

/-- C1, as stated, fails: the mount finds the credential `tok` and sends
`/api/me`; `logout()` clears the token; the response then arrives with a user
record and `fetchUserData` stores it.  The state holds a user and no token. -/
theorem stale_response_leaves_user_without_token :
    ∃ w1, run (mount (some "tok")) [.logoutCall, .meResponse 0
        (.response 200 (.obj (.cons "username" (.str "admin") .nil)))] = some w1 ∧
      w1.s.user = .obj (.cons "username" (.str "admin") .nil) ∧ w1.s.token = .null ∧
      ¬ UserImpliesCredential w1.s := by
  refine ⟨_, rfl, rfl, rfl, ?_⟩
  intro h
  exact absurd (h rfl) (by decide)

/-- C1 (amended): in every state reached from a mount with any store content
by a sequence of logins, logouts and responses in which every successful
`/api/me` response arrives while a credential is held, and no login response
hands a falsy access token to a session that holds a user, a present user
implies a present credential. -/
theorem user_implies_credential (store : Option String) (evs : List Event) (w : World)
    (hadm : admissible (fun w e => timely w e && keepsCredential w e) (mount store) evs = true)
    (hrun : run (mount store) evs = some w) : UserImpliesCredential w.s := by
  refine run_invariant (fun w e => timely w e && keepsCredential w e)
    (fun w => UserImpliesCredential w.s) ?_ evs (mount store) w ?_ hadm hrun
  · intro w e w1 hP hg hn
    simp only [Bool.and_eq_true] at hg
    obtain ⟨res, hs⟩ := next_eq_some hn
    cases e with
    | loginCall u p =>
        simp only [step, Option.some.injEq, Prod.mk.injEq] at hs
        rw [← hs.1]; exact hP
    | logoutCall =>
        simp only [step, Option.some.injEq, Prod.mk.injEq] at hs
        intro hu
        rw [← hs.1, commit_user] at hu
        exact absurd (show JVal.null.truthy = true from hu) (by decide)
    | loginResponse i r =>
        rcases step_loginResponse hs with ⟨e, _, _, rfl⟩ | ⟨v, hv, _, rfl⟩
        · exact hP
        · intro hu
          rw [commit_user] at hu
          rw [commit_token]
          have hk := hg.2
          simp only [keepsCredential, accessToken_of_grant hv, Bool.or_eq_true] at hk
          rcases hk with hk | hk
          · exact hk
          · have hu2 : w.s.user.truthy = true := hu
            simp [hu2] at hk
    | meResponse i r =>
        rcases step_meResponse hs with ⟨data, hok, rfl⟩ | ⟨_, rfl⟩
        · intro _
          have ht := hg.1
          simp only [timely, HttpOutcome.rejects, hok, Bool.false_or] at ht
          exact ht
        · intro hu
          exact absurd (show JVal.null.truthy = true from hu) (by decide)
  · unfold mount
    intro hu
    rw [tokenEffect_user] at hu
    exact absurd (show JVal.null.truthy = true from hu) (by decide)

/-- The amended C1 on a run through a full session: resolution, logout, a new
login and its two resolutions. -/
theorem user_implies_credential_witness :
    ∃ w, run (mount (some "tok")) sampleSession = some w ∧
      UserImpliesCredential w.s ∧ w.s.user = .obj .nil :=
  ⟨_, rfl, user_implies_credential (some "tok") sampleSession _ (by decide) rfl, rfl⟩

theorem synced_agree {s : Session} (h : Synced s) : Agree s := by
  rcases h with ⟨h1, h2, h3⟩ | ⟨t, _, h1, h2, h3⟩
  · exact Or.inl ⟨by unfold Absent; rw [h1]; rfl, h2, h3⟩
  · exact Or.inr ⟨t, h1, h2, h3⟩

theorem synced_mount (store : Option String) (hstore : store ≠ some "") :
    Synced (mount store).s := by
  unfold mount
  cases store with
  | none =>
      rw [tokenEffect_falsy (by rfl)]
      exact Or.inl ⟨rfl, rfl, rfl⟩
  | some t =>
      have ht : t ≠ "" := fun h => hstore (by rw [h])
      rw [tokenEffect_truthy (by simpa [initialState, fromStore] using truthy_str.2 ht)]
      exact Or.inr ⟨t, ht, rfl, rfl, rfl⟩

theorem synced_step (w : World) (e : Event) (w1 : World) (hP : Synced w.s)
    (hg : contractLogin e = true) (hn : next w e = some w1) : Synced w1.s := by
  obtain ⟨res, hs⟩ := next_eq_some hn
  cases e with
  | loginCall u p =>
      simp only [step, Option.some.injEq, Prod.mk.injEq] at hs
      rw [← hs.1]; exact hP
  | logoutCall =>
      simp only [step, Option.some.injEq, Prod.mk.injEq] at hs
      rw [← hs.1]
      refine Or.inl ⟨?_, ?_, (commit_logout _ w).1⟩
      · rw [commit_token]; rfl
      · rw [commit_store]; rfl
  | loginResponse i r =>
      rcases step_loginResponse hs with ⟨e, _, _, rfl⟩ | ⟨v, hv, _, rfl⟩
      · exact hP
      · simp only [contractLogin, accessToken_of_grant hv] at hg
        cases v with
        | str t =>
            have ht : t ≠ "" := by simpa using hg
            refine Or.inr ⟨t, ht, ?_, ?_, ?_⟩
            · rw [commit_token]; rfl
            · rw [commit_store]; rfl
            · exact commit_authHeader_truthy _ _ (truthy_str.2 ht) rfl
        | _ => simp at hg
  | meResponse i r =>
      rcases step_meResponse hs with ⟨data, _, rfl⟩ | ⟨_, rfl⟩
      · exact hP
      · exact Or.inl ⟨rfl, rfl, rfl⟩

/-- C2, as stated, fails: `login` from `Unauthenticated` receives `200` with
the body `{}`.  It stores the string `undefined` and attaches the header
`Bearer undefined`; the re-render finds the token `undefined` falsy and deletes
the header; `/api/me` then answers with a user record and `login` returns
`{success: true}`.  The token is `undefined`, the header is absent and the
store holds the string `undefined`.  The startup effect on a store holding the
empty string disagrees as well: the empty string is kept in memory and in the
store while no header is set. -/
theorem missing_access_token_desynchronises :
    (∃ w1 res, run (mount none) [.loginCall "admin" "admin",
          .loginResponse 0 (.response 200 (.obj .nil))] = some w1 ∧
        step w1 (.meResponse 0
          (.response 200 (.obj (.cons "username" (.str "admin") .nil)))) = some res ∧
        res.2 = some ⟨true, none⟩ ∧
        res.1.s.token = .undefined ∧ res.1.s.store = some "undefined" ∧
        res.1.s.authHeader = none ∧ res.1.meRequests = [] ∧ res.1.loginRequests = [] ∧
        ¬ Agree res.1.s) ∧
      ((mount (some "")).s.token = .str "" ∧ (mount (some "")).s.store = some "" ∧
        (mount (some "")).s.authHeader = none ∧ ¬ Agree (mount (some "")).s) := by
  refine ⟨⟨_, _, rfl, rfl, rfl, rfl, by decide, rfl, rfl, rfl, ?_⟩, rfl, rfl, rfl, ?_⟩
  · rintro (⟨_, h, _⟩ | ⟨t, h, _⟩)
    · exact absurd h (by decide)
    · exact JVal.noConfusion h
  · rintro (⟨_, h, _⟩ | ⟨t, _, _, h⟩)
    · exact absurd h (by decide)
    · exact Option.noConfusion (show (none : Option String) = some ("Bearer " ++ t) from h)

/-- C2 (amended): when the store found at the mount is empty or holds a
non-empty string, and every resolved `POST /api/login` carries a non-empty
string `access_token`, then after every event (the startup effect, every step
of `login` and of `fetchUserData`, `logout`) the three places agree: token
`null`, nothing stored and no header, or token a non-empty string `t`, store
`t` and header `Bearer t`. -/
theorem credential_mirrored (store : Option String) (evs : List Event) (w : World)
    (hstore : store ≠ some "")
    (hadm : admissible (fun _ e => contractLogin e) (mount store) evs = true)
    (hrun : run (mount store) evs = some w) : Synced w.s ∧ Agree w.s := by
  have h : Synced w.s :=
    run_invariant (fun _ e => contractLogin e) (fun w => Synced w.s)
      (fun w e w1 hP hg hn => synced_step w e w1 hP hg hn) evs (mount store) w
      (synced_mount store hstore) hadm hrun
  exact ⟨h, synced_agree h⟩

/-- The amended C2 on a run through a full session. -/
theorem credential_mirrored_witness :
    ∃ w, run (mount (some "tok")) sampleSession = some w ∧ Synced w.s ∧ Agree w.s ∧
      CredentialSet "new" w.s :=
  ⟨_, rfl, (credential_mirrored (some "tok") sampleSession _ (by decide) (by decide) rfl).1,
    (credential_mirrored (some "tok") sampleSession _ (by decide) (by decide) rfl).2,
    ⟨rfl, rfl, by decide⟩⟩

end AuthContext
